import Mathlib

/-!
Verification of the session-manager core of dev-manager-desktop
(`src-tauri/src/session_manager/connection.rs`).

The Rust code is shallowly embedded: byte buffers become `List Nat`,
the channel message stream becomes a list of `ChannelMsg` values, and the
two async loops (`Connection::exec` and `Proc::run`) become structurally
recursive functions, respectively a small-step state machine whose events
are the individual lock acquisitions of `run` and `interrupt` (the channel
slot's mutex linearizes those accesses, so interleavings are modelled as
event sequences).
-/

namespace DevManager

/-- Byte buffers (`Vec<u8>` / `CryptoVec`) as lists of octet values. -/
abbrev Bytes := List Nat

/-- Channel messages consumed by both loops (russh `ChannelMsg`); variants
other than the five the code inspects are collapsed into `Other`. -/
inductive ChannelMsg where
  | Data (data : Bytes)
  | ExtendedData (data : Bytes) (ext : Nat)
  | ExitStatus (exit_status : Nat)
  | Eof
  | Close
  | Other
  deriving DecidableEq, Repr

/-- Transport-level errors returned by russh. The code distinguishes only
`ChannelOpenFailure` from everything else, so remaining variants are
collapsed into `Other` with an opaque code. -/
inductive RusshError where
  | ChannelOpenFailure (reason : Nat)
  | Other (code : Nat)
  deriving DecidableEq, Repr

/-- Modelled from the spec: the `Error` / `ErrorKind` type lives in
`session_manager/mod.rs`, which is not part of the sources; per the spec's
error taxonomy it has a generic message form (`Error::new`), the
distinguished `Reconnect` signal (`Error::reconnect()`), a structured
exit-status form carrying the numeric status and captured stderr bytes,
and a transport form wrapping the underlying russh cause unchanged. -/
inductive Error where
  | Message (message : String)
  | Reconnect
  | ExitStatus (message : String) (status : Nat) (output : Bytes)
  | Transport (cause : RusshError)
  deriving DecidableEq, Repr

/-- Channels are opaque here; only their identity matters to the model. -/
abbrev Channel := Nat

/-- The pool maps device names to connections; only the key set matters to
the claims, so it is modelled as the list of device names present
(`HashMap` keys are unique, and `remove` drops the key). -/
abbrev ConnectionsMap := List String

namespace Connection

/-- Embeds `Connection::remove_from_pool` (connection.rs lines 84-88): the
weak pool reference is `none` when `upgrade()` fails, in which case nothing
happens; otherwise the entry under this device's name is removed. -/
def remove_from_pool (name : String) (pool : Option ConnectionsMap) :
    Option ConnectionsMap :=
  match pool with
  | some m => some (m.filter (fun k => k != name))
  | none => none

/-- Result of a channel-open attempt: the pool afterwards, and what the
caller receives. -/
structure OpenOutcome where
  pool : Option ConnectionsMap
  result : Except Error Channel
  deriving Repr

/-- Embeds `Connection::open_cmd_channel` (connection.rs lines 90-100).
`r` is the outcome of `handle.channel_open_session()`. On any error, the
connection removes itself from the pool; a `ChannelOpenFailure` is turned
into the distinguished `Reconnect` error, anything else is propagated
as-is wrapped by the `From` conversion. -/
def open_cmd_channel (name : String) (pool : Option ConnectionsMap)
    (r : Except RusshError Channel) : OpenOutcome :=
  match r with
  | .error e =>
      match e with
      | .ChannelOpenFailure _ =>
          ⟨remove_from_pool name pool, .error .Reconnect⟩
      | _ =>
          ⟨remove_from_pool name pool, .error (.Transport e)⟩
  | .ok ch => ⟨pool, .ok ch⟩

end Connection

/-- Embeds the completion check shared by both loops (connection.rs lines
66-73): an absent status is treated as 0; non-zero fails with the
structured exit-status error carrying the stderr buffer. -/
def execFinish (status : Option Nat) (stdout stderr : Bytes) :
    Except Error Bytes :=
  let s := status.getD 0
  if s ≠ 0 then
    .error (.ExitStatus ("Command exited with non-zero return code " ++ toString s)
      s stderr)
  else
    .ok stdout

/-- Outcome of `Connection::exec`'s message loop, instrumented with the
final loop state: `status`/`eof` are the tracking variables at exit,
`broke` is true when the loop exited via `break` (both signals seen) as
opposed to `wait()` yielding nothing, `consumed` is the list of messages
the loop actually consumed. -/
structure ExecResult where
  result : Except Error Bytes
  status : Option Nat
  eof : Bool
  broke : Bool
  stdout : Bytes
  stderr : Bytes
  consumed : List ChannelMsg
  deriving Repr

/-- Embeds the message loop of `Connection::exec` (connection.rs lines
33-73). The input list is the message sequence the channel delivers; when
it is exhausted, `wait()` yields `None` and the loop returns the generic
"empty message" error. -/
def execLoop : List ChannelMsg → Bytes → Bytes → Option Nat → Bool → ExecResult
  | [], stdout, stderr, status, eof =>
      ⟨.error (.Message "empty message"), status, eof, false, stdout, stderr, []⟩
  | msg :: rest, stdout, stderr, status, eof =>
      match msg with
      | .Data d =>
          let r := execLoop rest (stdout ++ d) stderr status eof
          { r with consumed := msg :: r.consumed }
      | .ExtendedData d ext =>
          let r := execLoop rest stdout (if ext = 1 then stderr ++ d else stderr)
            status eof
          { r with consumed := msg :: r.consumed }
      | .ExitStatus s =>
          if eof then
            ⟨execFinish (some s) stdout stderr, some s, eof, true, stdout, stderr,
              [msg]⟩
          else
            let r := execLoop rest stdout stderr (some s) eof
            { r with consumed := msg :: r.consumed }
      | .Eof =>
          if status.isSome then
            ⟨execFinish status stdout stderr, status, true, true, stdout, stderr,
              [msg]⟩
          else
            let r := execLoop rest stdout stderr status true
            { r with consumed := msg :: r.consumed }
      | _ =>
          let r := execLoop rest stdout stderr status eof
          { r with consumed := msg :: r.consumed }

/-- The message loop of `Connection::exec` started from its initial state
(empty buffers, no status, no end-of-stream). -/
def Connection.execMessages (msgs : List ChannelMsg) : ExecResult :=
  execLoop msgs [] [] none false

/-- Outcome of a full `Connection::exec` call: the pool afterwards and the
result the caller receives. -/
structure ExecOutcome where
  pool : Option ConnectionsMap
  result : Except Error Bytes
  deriving Repr

/-- Embeds `Connection::exec` end to end (connection.rs lines 23-74):
channel open via `open_cmd_channel`, the exec request, the optional stdin
write followed by eof, then the message loop. `execReqR`, `dataR` and
`eofR` are the outcomes of the corresponding channel operations; their
errors propagate via `?` (wrapped as transport errors) without touching
the pool. -/
def Connection.exec (name : String) (pool : Option ConnectionsMap)
    (openR : Except RusshError Channel) (execReqR : Except RusshError Unit)
    (stdin : Option Bytes) (dataR eofR : Except RusshError Unit)
    (msgs : List ChannelMsg) : ExecOutcome :=
  match Connection.open_cmd_channel name pool openR with
  | ⟨pool1, .error e⟩ => ⟨pool1, .error e⟩
  | ⟨pool1, .ok _⟩ =>
      match execReqR with
      | .error e => ⟨pool1, .error (.Transport e)⟩
      | .ok _ =>
          let stdinR : Except Error Unit :=
            match stdin with
            | some _ =>
                match dataR with
                | .error e => .error (.Transport e)
                | .ok _ =>
                    match eofR with
                    | .error e => .error (.Transport e)
                    | .ok _ => .ok ()
            | none => .ok ()
          match stdinR with
          | .error e => ⟨pool1, .error e⟩
          | .ok _ => ⟨pool1, (Connection.execMessages msgs).result⟩

/-- Embeds the completion check at the end of `Proc::run` (connection.rs
lines 167-174): identical to `exec`'s but the error message carries no
status and the success value is `()`. -/
def runFinish (status : Option Nat) (stderr : Bytes) : Except Error Unit :=
  let s := status.getD 0
  if s ≠ 0 then
    .error (.ExitStatus "Command exited with non-zero return code" s stderr)
  else
    .ok ()

/-- Phase of the `Proc::run` task: not yet started, inside the message
loop, or returned. -/
inductive Phase where
  | idle
  | looping
  | finished
  deriving DecidableEq, Repr

/-- State of a `Proc` together with the local state of its `run` task.
`slot` is whether `self.ch` holds the channel; `closes` counts calls to
`ch.close()` and `emptyings` counts populated-to-empty transitions of the
slot (both are instrumentation); `status`, `eofSeen`, `index`, `sink`
(the pairs passed to the stdout callback) and `stderrBuf` are `run`'s
locals; `dataLog` records the payloads of the `Data` messages `run`
consumed, in arrival order. -/
structure ProcState where
  slot : Bool
  execSent : Bool
  phase : Phase
  status : Option Nat
  eofSeen : Bool
  index : Nat
  sink : List (Nat × Bytes)
  stderrBuf : Bytes
  runResult : Option (Except Error Unit)
  closes : Nat
  emptyings : Nat
  dataLog : List Bytes
  deriving Repr

namespace Proc

/-- Embeds `Proc::interrupt` (connection.rs lines 177-184): take the
channel out of the slot if present and close it. `closeR` is the outcome
of `ch.close()`; its error propagates to the caller via `?` (wrapped by
the `From` conversion), after the channel has already been taken out of
the slot. When the slot is empty no close is attempted and the result is
`Ok(())` regardless of `closeR`. -/
def interrupt (s : ProcState) (closeR : Except RusshError Unit) :
    ProcState × Except Error Unit :=
  if s.slot then
    ({ s with slot := false, closes := s.closes + 1,
              emptyings := s.emptyings + 1 },
     match closeR with
     | .error e => .error (.Transport e)
     | .ok _ => .ok ())
  else
    (s, .ok ())

/-- Events of the interleaved execution of `run` and `interrupt`, one per
acquisition of the slot's mutex: `runStart` is `run`'s pre-loop check that
sends the exec request, `runRecv m` is a loop iteration in which `wait()`
yields message `m`, `runRecvNone` one in which `wait()` yields nothing,
`runObserveEmpty` one in which the slot is found empty, and `interruptEv`
is a call to `interrupt`. -/
inductive Event where
  | runStart
  | runRecv (m : ChannelMsg)
  | runRecvNone
  | runObserveEmpty
  | interruptEv
  deriving DecidableEq, Repr

/-- Embeds one slot access of `Proc::run` (connection.rs lines 126-166) or
`Proc::interrupt`. Events whose guard does not hold in the current state
(for instance a `runRecv` while the slot is empty, or any `run` event
after `run` returned) leave the state unchanged. The `Proc` state after an
interrupt does not depend on the outcome of the close (only `interrupt`'s
return value does — see `interrupt_state_independent_of_close`), so the
machine fixes a successful close for the state transition. -/
def step (s : ProcState) (e : Event) : ProcState :=
  match e with
  | .runStart =>
      if s.phase = .idle then
        { s with phase := .looping, execSent := s.slot }
      else s
  | .runRecv m =>
      if s.phase = .looping ∧ s.slot = true then
        match m with
        | .Data d =>
            { s with sink := s.sink ++ [(s.index, d)], index := s.index + 1,
                     dataLog := s.dataLog ++ [d] }
        | .ExtendedData d ext =>
            if ext = 1 then { s with stderrBuf := s.stderrBuf ++ d } else s
        | .ExitStatus c =>
            if s.eofSeen then
              { s with status := some c, phase := .finished,
                       runResult := some (runFinish (some c) s.stderrBuf) }
            else
              { s with status := some c }
        | .Eof =>
            if s.status.isSome then
              { s with eofSeen := true, phase := .finished,
                       runResult := some (runFinish s.status s.stderrBuf) }
            else
              { s with eofSeen := true }
        | _ => s
      else s
  | .runRecvNone =>
      if s.phase = .looping ∧ s.slot = true then
        { s with phase := .finished,
                 runResult := some (.error (.Message "empty message")) }
      else s
  | .runObserveEmpty =>
      if s.phase = .looping ∧ s.slot = false then
        { s with phase := .finished,
                 runResult := some (runFinish s.status s.stderrBuf) }
      else s
  | .interruptEv => (interrupt s (Except.ok ())).1

/-- State of a freshly constructed `Proc` (`Connection::open`, connection.rs
lines 76-82): the slot is populated, `run` has not started. -/
def procInit : ProcState :=
  ⟨true, false, .idle, none, false, 0, [], [], none, 0, 0, []⟩

/-- Runs a sequence of interleaved events from a state. -/
def runTrace (s : ProcState) (es : List Event) : ProcState :=
  es.foldl step s

end Proc

/-- Stdout payloads of a message list, in order. -/
def dataChunks (l : List ChannelMsg) : List Bytes :=
  l.filterMap fun m =>
    match m with
    | .Data d => some d
    | _ => none

/-- Stderr payloads (extended data with stream identifier 1) of a message
list, in order. -/
def ext1Chunks (l : List ChannelMsg) : List Bytes :=
  l.filterMap fun m =>
    match m with
    | .ExtendedData d ext => if ext = 1 then some d else none
    | _ => none

/-- Whether a message is an exit-status signal. -/
def isExitMsg : ChannelMsg → Bool
  | .ExitStatus _ => true
  | _ => false

/-- Characterization of how `exec`'s loop exits: on `break` (both signals
seen) the result is the completion check applied to the final state, the
status is present and end-of-stream was seen; otherwise the stream was
exhausted and the result is the generic error. -/
theorem execLoop_result (msgs : List ChannelMsg) :
    ∀ (out err : Bytes) (st : Option Nat) (eo : Bool),
    ((execLoop msgs out err st eo).broke = true →
      (execLoop msgs out err st eo).result
        = execFinish (execLoop msgs out err st eo).status
            (execLoop msgs out err st eo).stdout
            (execLoop msgs out err st eo).stderr ∧
      (execLoop msgs out err st eo).status.isSome = true ∧
      (execLoop msgs out err st eo).eof = true) ∧
    ((execLoop msgs out err st eo).broke = false →
      (execLoop msgs out err st eo).result
        = Except.error (Error.Message "empty message")) := by
  induction msgs with
  | nil =>
      intro out err st eo
      exact ⟨fun h => by simp [execLoop] at h, fun _ => rfl⟩
  | cons m rest ih =>
      intro out err st eo
      cases m with
      | Data d => simpa only [execLoop] using ih (out ++ d) err st eo
      | ExtendedData d ext =>
          simpa only [execLoop] using ih out (if ext = 1 then err ++ d else err) st eo
      | ExitStatus c =>
          cases eo with
          | true => exact ⟨fun _ => ⟨rfl, rfl, rfl⟩, fun h => by simp [execLoop] at h⟩
          | false => simpa [execLoop] using ih out err (some c) false
      | Eof =>
          cases st with
          | some v => exact ⟨fun _ => ⟨rfl, rfl, rfl⟩, fun h => by simp [execLoop] at h⟩
          | none => simpa [execLoop] using ih out err none true
      | Close => simpa only [execLoop] using ih out err st eo
      | Other => simpa only [execLoop] using ih out err st eo

/-- The stdout buffer accumulated by `exec`'s loop is the initial buffer
followed by the stdout payloads of the consumed messages, concatenated in
arrival order. -/
theorem execLoop_stdout (msgs : List ChannelMsg) :
    ∀ (out err : Bytes) (st : Option Nat) (eo : Bool),
    (execLoop msgs out err st eo).stdout
      = out ++ (dataChunks (execLoop msgs out err st eo).consumed).flatten := by
  induction msgs with
  | nil => intro out err st eo; simp [execLoop, dataChunks]
  | cons m rest ih =>
      intro out err st eo
      cases m with
      | Data d =>
          have h := ih (out ++ d) err st eo
          simp [execLoop, dataChunks, List.filterMap_cons, List.append_assoc] at h ⊢
          simp [h, List.append_assoc]
      | ExtendedData d ext =>
          have h := ih out (if ext = 1 then err ++ d else err) st eo
          simpa [execLoop, dataChunks, List.filterMap_cons] using h
      | ExitStatus c =>
          cases eo with
          | true => simp [execLoop, dataChunks]
          | false =>
              have h := ih out err (some c) false
              simpa [execLoop, dataChunks, List.filterMap_cons] using h
      | Eof =>
          cases st with
          | some v => simp [execLoop, dataChunks]
          | none =>
              have h := ih out err none true
              simpa [execLoop, dataChunks, List.filterMap_cons] using h
      | Close =>
          have h := ih out err st eo
          simpa [execLoop, dataChunks, List.filterMap_cons] using h
      | Other =>
          have h := ih out err st eo
          simpa [execLoop, dataChunks, List.filterMap_cons] using h

/-- The stderr buffer accumulated by `exec`'s loop is the initial buffer
followed by the stream-1 extended payloads of the consumed messages, in
arrival order. -/
theorem execLoop_stderr (msgs : List ChannelMsg) :
    ∀ (out err : Bytes) (st : Option Nat) (eo : Bool),
    (execLoop msgs out err st eo).stderr
      = err ++ (ext1Chunks (execLoop msgs out err st eo).consumed).flatten := by
  induction msgs with
  | nil => intro out err st eo; simp [execLoop, ext1Chunks]
  | cons m rest ih =>
      intro out err st eo
      cases m with
      | Data d =>
          have h := ih (out ++ d) err st eo
          simpa [execLoop, ext1Chunks, List.filterMap_cons] using h
      | ExtendedData d ext =>
          have h := ih out (if ext = 1 then err ++ d else err) st eo
          by_cases he : ext = 1
          · simp [execLoop, ext1Chunks, List.filterMap_cons, he] at h ⊢
            simp [h, List.append_assoc]
          · simpa [execLoop, ext1Chunks, List.filterMap_cons, he] using h
      | ExitStatus c =>
          cases eo with
          | true => simp [execLoop, ext1Chunks]
          | false =>
              have h := ih out err (some c) false
              simpa [execLoop, ext1Chunks, List.filterMap_cons] using h
      | Eof =>
          cases st with
          | some v => simp [execLoop, ext1Chunks]
          | none =>
              have h := ih out err none true
              simpa [execLoop, ext1Chunks, List.filterMap_cons] using h
      | Close =>
          have h := ih out err st eo
          simpa [execLoop, ext1Chunks, List.filterMap_cons] using h
      | Other =>
          have h := ih out err st eo
          simpa [execLoop, ext1Chunks, List.filterMap_cons] using h

/-- C4, counterexample: the claim states that `exec` succeeds whenever
the observed exit status is zero *or absent*, but on the message sequence
consisting of a single end-of-stream message the status is never observed
(absent), and `exec` fails with the generic "empty message" error instead
of succeeding: the loop can only `break` after an exit-status arrived, so
an absent status always falls into the stream-exhaustion error path. -/
theorem exec_absent_status_errors_at_stream_end :
    (Connection.execMessages [ChannelMsg.Eof]).status = none ∧
    (Connection.execMessages [ChannelMsg.Eof]).result
      = Except.error (Error.Message "empty message") :=
  ⟨rfl, rfl⟩

/-- C4 (amended): `exec` returns success iff its message loop terminated
via `break` (both exit-status and end-of-stream observed) with exit status
zero — an absent status never reaches the completion check, since the loop
only breaks after observing a status. On success the result is the
concatenation of all stdout-data chunks in arrival order; on a non-zero
status the structured error carries the numeric status and the stderr
buffer (stream-identifier-1 extended data only), and the collected stdout
is not returned. -/
theorem exec_success_iff_zero_status (msgs : List ChannelMsg) :
    ((∃ out, (Connection.execMessages msgs).result = Except.ok out) ↔
      ((Connection.execMessages msgs).broke = true ∧
        (Connection.execMessages msgs).status = some 0)) ∧
    ((Connection.execMessages msgs).broke = true →
      (Connection.execMessages msgs).status = some 0 →
      (Connection.execMessages msgs).result
        = Except.ok (Connection.execMessages msgs).stdout) ∧
    (∀ c, (Connection.execMessages msgs).broke = true →
      (Connection.execMessages msgs).status = some c → c ≠ 0 →
      (Connection.execMessages msgs).result
        = Except.error (Error.ExitStatus
            ("Command exited with non-zero return code " ++ toString c) c
            (Connection.execMessages msgs).stderr)) ∧
    (Connection.execMessages msgs).stdout
      = (dataChunks (Connection.execMessages msgs).consumed).flatten ∧
    (Connection.execMessages msgs).stderr
      = (ext1Chunks (Connection.execMessages msgs).consumed).flatten := by
  simp only [Connection.execMessages]
  obtain ⟨hbr, hnb⟩ := execLoop_result msgs [] [] none false
  refine ⟨⟨?_, ?_⟩, ?_, ?_, ?_, ?_⟩
  · rintro ⟨o, ho⟩
    cases hb : (execLoop msgs [] [] none false).broke with
    | false => rw [hnb hb] at ho; exact absurd ho (by simp)
    | true =>
        obtain ⟨hr, hs, _⟩ := hbr hb
        refine ⟨rfl, ?_⟩
        cases hst : (execLoop msgs [] [] none false).status with
        | none => rw [hst] at hs; simp at hs
        | some c =>
            rw [hst] at hr
            by_cases hc : c = 0
            · rw [hc]
            · rw [hr] at ho; simp [execFinish, hc] at ho
  · rintro ⟨hb, hs⟩
    obtain ⟨hr, _, _⟩ := hbr hb
    rw [hs] at hr
    refine ⟨(execLoop msgs [] [] none false).stdout, ?_⟩
    rw [hr]; simp [execFinish]
  · intro hb hs
    obtain ⟨hr, _, _⟩ := hbr hb
    rw [hs] at hr
    rw [hr]; simp [execFinish]
  · intro c hb hs hc
    obtain ⟨hr, _, _⟩ := hbr hb
    rw [hs] at hr
    rw [hr]; simp [execFinish, hc]
  · simpa using execLoop_stdout msgs [] [] none false
  · simpa using execLoop_stderr msgs [] [] none false

/-- C4 witness: on a stream delivering one stdout chunk, exit status 0 and
end-of-stream, `exec` returns the stdout buffer. -/
theorem exec_success_iff_zero_status_witness :
    (Connection.execMessages
        [ChannelMsg.Data [1], ChannelMsg.ExitStatus 0, ChannelMsg.Eof]).result
      = Except.ok (Connection.execMessages
          [ChannelMsg.Data [1], ChannelMsg.ExitStatus 0, ChannelMsg.Eof]).stdout :=
  (exec_success_iff_zero_status
    [ChannelMsg.Data [1], ChannelMsg.ExitStatus 0, ChannelMsg.Eof]).2.1 rfl rfl

/-- Order-independence engine for C5: as long as no exit-status has been
consumed, swapping an adjacent end-of-stream / exit-status pair does not
change the result of `exec`'s loop. -/
theorem execLoop_swap (pre : List ChannelMsg) :
    ∀ (post : List ChannelMsg) (c : Nat) (out err : Bytes) (eo : Bool),
    (∀ m ∈ pre, isExitMsg m = false) →
    (execLoop (pre ++ ChannelMsg.Eof :: ChannelMsg.ExitStatus c :: post)
        out err none eo).result
      = (execLoop (pre ++ ChannelMsg.ExitStatus c :: ChannelMsg.Eof :: post)
          out err none eo).result := by
  induction pre with
  | nil =>
      intro post c out err eo _
      cases eo <;> simp [execLoop]
  | cons m pre ih =>
      intro post c out err eo h
      have hm := h m (List.mem_cons_self m pre)
      have hpre : ∀ x ∈ pre, isExitMsg x = false :=
        fun x hx => h x (List.mem_cons_of_mem m hx)
      cases m with
      | Data d => simpa [execLoop] using ih post c (out ++ d) err eo hpre
      | ExtendedData d ext =>
          simpa [execLoop] using ih post c out (if ext = 1 then err ++ d else err) eo hpre
      | ExitStatus s => simp [isExitMsg] at hm
      | Eof => simpa [execLoop] using ih post c out err true hpre
      | Close => simpa [execLoop] using ih post c out err eo hpre
      | Other => simpa [execLoop] using ih post c out err eo hpre

/-- C5: the message loop of `exec` breaks only after both an exit-status
and an end-of-stream have been observed, and its result does not depend on
the order in which that pair arrives: delivering end-of-stream immediately
before the (first) exit-status yields the same result as delivering them
in the reverse order. -/
theorem exec_requires_both_signals_order_independent :
    (∀ msgs, (Connection.execMessages msgs).broke = true →
      (Connection.execMessages msgs).status.isSome = true ∧
      (Connection.execMessages msgs).eof = true) ∧
    (∀ (pre post : List ChannelMsg) (c : Nat),
      (∀ m ∈ pre, isExitMsg m = false) →
      (Connection.execMessages
          (pre ++ ChannelMsg.Eof :: ChannelMsg.ExitStatus c :: post)).result
        = (Connection.execMessages
            (pre ++ ChannelMsg.ExitStatus c :: ChannelMsg.Eof :: post)).result) := by
  constructor
  · intro msgs hb
    obtain ⟨_, hs, he⟩ := (execLoop_result msgs [] [] none false).1 hb
    exact ⟨hs, he⟩
  · intro pre post c h
    exact execLoop_swap pre post c [] [] false h

/-- C5 witness: with one stdout chunk in front, end-of-stream then exit
status 0 gives the same result as exit status 0 then end-of-stream, and a
loop that broke indeed observed a status. -/
theorem exec_requires_both_signals_order_independent_witness :
    (Connection.execMessages [ChannelMsg.ExitStatus 0, ChannelMsg.Eof]).status.isSome
        = true ∧
    (Connection.execMessages
        ([ChannelMsg.Data [7]] ++ ChannelMsg.Eof :: ChannelMsg.ExitStatus 0 :: [])).result
      = (Connection.execMessages
          ([ChannelMsg.Data [7]] ++ ChannelMsg.ExitStatus 0 :: ChannelMsg.Eof :: [])).result :=
  ⟨(exec_requires_both_signals_order_independent.1
      [ChannelMsg.ExitStatus 0, ChannelMsg.Eof] rfl).1,
   exec_requires_both_signals_order_independent.2
      [ChannelMsg.Data [7]] [] 0 (by simp [isExitMsg])⟩

/-- Engine for C9: with no exit-status in the remaining stream and none
observed yet, the loop can never break, so it perishes on the exhausted
stream with the generic error. -/
theorem execLoop_no_status (msgs : List ChannelMsg) :
    ∀ (out err : Bytes) (eo : Bool), (∀ m ∈ msgs, isExitMsg m = false) →
    (execLoop msgs out err none eo).result
      = Except.error (Error.Message "empty message") := by
  induction msgs with
  | nil => intro out err eo _; rfl
  | cons m rest ih =>
      intro out err eo h
      have hm := h m (List.mem_cons_self m rest)
      have hrest : ∀ x ∈ rest, isExitMsg x = false :=
        fun x hx => h x (List.mem_cons_of_mem m hx)
      cases m with
      | Data d => simpa [execLoop] using ih (out ++ d) err eo hrest
      | ExtendedData d ext =>
          simpa [execLoop] using ih out (if ext = 1 then err ++ d else err) eo hrest
      | ExitStatus s => simp [isExitMsg] at hm
      | Eof => simpa [execLoop] using ih out err true hrest
      | Close => simpa [execLoop] using ih out err eo hrest
      | Other => simpa [execLoop] using ih out err eo hrest

/-- C9: a message stream that ends (the wait yields nothing) without ever
producing an exit-status makes `exec` fail with the generic error rather
than succeed; in the code the generic error's message is "empty message"
(the spec labels this condition "malformed end of stream"). -/
theorem exec_stream_end_without_status_errors (msgs : List ChannelMsg)
    (h : ∀ m ∈ msgs, isExitMsg m = false) :
    (Connection.execMessages msgs).result
      = Except.error (Error.Message "empty message") :=
  execLoop_no_status msgs [] [] false h

/-- C9 witness: a stream delivering one stdout chunk, an end-of-stream and
nothing else makes `exec` fail with the generic error. -/
theorem exec_stream_end_without_status_errors_witness :
    (Connection.execMessages [ChannelMsg.Data [3], ChannelMsg.Eof]).result
      = Except.error (Error.Message "empty message") :=
  exec_stream_end_without_status_errors [ChannelMsg.Data [3], ChannelMsg.Eof]
    (by simp [isExitMsg])

/-- A predicate preserved by every step holds after any event sequence. -/
theorem runTrace_inv (P : ProcState → Prop)
    (hstep : ∀ s e, P s → P (Proc.step s e)) :
    ∀ (es : List Proc.Event) (s : ProcState), P s → P (Proc.runTrace s es) := by
  intro es
  induction es with
  | nil => intro s hs; exact hs
  | cons e rest ih => intro s hs; exact ih _ (hstep s e hs)

/-- The `Proc` state produced by `interrupt` does not depend on the
outcome of the channel close: the channel is taken out of the slot before
`ch.close().await?` can fail, so only `interrupt`'s return value reflects
the close outcome. -/
theorem interrupt_state_independent_of_close (s : ProcState)
    (c1 c2 : Except RusshError Unit) :
    (Proc.interrupt s c1).1 = (Proc.interrupt s c2).1 := by
  by_cases h : s.slot = true <;> simp [Proc.interrupt, h]

/-- Only `interrupt` touches the channel slot or closes the channel; every
event of `run` leaves the slot, the close count and the emptying count
unchanged. -/
theorem step_preserves_slot (s : ProcState) (e : Proc.Event)
    (he : e ≠ Proc.Event.interruptEv) :
    (Proc.step s e).slot = s.slot ∧ (Proc.step s e).closes = s.closes ∧
    (Proc.step s e).emptyings = s.emptyings := by
  cases e with
  | interruptEv => exact absurd rfl he
  | runStart =>
      simp only [Proc.step]; split <;> exact ⟨rfl, rfl, rfl⟩
  | runRecvNone =>
      simp only [Proc.step]; split <;> exact ⟨rfl, rfl, rfl⟩
  | runObserveEmpty =>
      simp only [Proc.step]; split <;> exact ⟨rfl, rfl, rfl⟩
  | runRecv m =>
      cases m <;> simp only [Proc.step] <;> split <;> (try split) <;>
        exact ⟨rfl, rfl, rfl⟩

/-- C6, counterexample: a `run` that completes naturally (status 0 then
end-of-stream) returns success, yet the channel slot is still populated
and no populated-to-empty transition ever happened — natural completion of
`run` does not empty the slot, contradicting the claim that the slot is
emptied exactly once, by `run`'s completion or by `interrupt`. -/
theorem run_natural_completion_leaves_slot_populated :
    (Proc.runTrace Proc.procInit
      [Proc.Event.runStart, Proc.Event.runRecv (ChannelMsg.ExitStatus 0),
       Proc.Event.runRecv ChannelMsg.Eof]).runResult = some (Except.ok ()) ∧
    (Proc.runTrace Proc.procInit
      [Proc.Event.runStart, Proc.Event.runRecv (ChannelMsg.ExitStatus 0),
       Proc.Event.runRecv ChannelMsg.Eof]).slot = true ∧
    (Proc.runTrace Proc.procInit
      [Proc.Event.runStart, Proc.Event.runRecv (ChannelMsg.ExitStatus 0),
       Proc.Event.runRecv ChannelMsg.Eof]).emptyings = 0 :=
  ⟨rfl, rfl, rfl⟩

/-- C6 (amended): over any interleaving of `run` and `interrupt` events
the slot transitions from populated to empty at most once, every such
transition closes the channel exactly once, and only `interrupt` performs
it — `run`'s events never change the slot. -/
theorem slot_emptied_at_most_once_only_by_interrupt :
    (∀ es, (Proc.runTrace Proc.procInit es).closes
        = (Proc.runTrace Proc.procInit es).emptyings ∧
      (Proc.runTrace Proc.procInit es).emptyings
        = (if (Proc.runTrace Proc.procInit es).slot then 0 else 1)) ∧
    (∀ s e, e ≠ Proc.Event.interruptEv → (Proc.step s e).slot = s.slot) := by
  constructor
  · intro es
    refine runTrace_inv
      (fun s => s.closes = s.emptyings ∧ s.emptyings = (if s.slot then 0 else 1))
      ?_ es Proc.procInit ⟨rfl, rfl⟩
    intro s e hs
    obtain ⟨h1, h2⟩ := hs
    by_cases he : e = Proc.Event.interruptEv
    · subst he
      simp only [Proc.step, Proc.interrupt]
      split
      · next hslot => simp [hslot] at h2; simp [h1, h2]
      · next hslot => simp [hslot] at h2; exact ⟨h1, h2⟩
    · obtain ⟨p1, p2, p3⟩ := step_preserves_slot s e he
      rw [p1, p2, p3]; exact ⟨h1, h2⟩
  · intro s e he
    exact (step_preserves_slot s e he).1

/-- C6 witness: after a single interrupt the counters agree, and a
`runStart` event leaves the slot untouched. -/
theorem slot_emptied_at_most_once_only_by_interrupt_witness :
    ((Proc.runTrace Proc.procInit [Proc.Event.interruptEv]).closes
      = (Proc.runTrace Proc.procInit [Proc.Event.interruptEv]).emptyings) ∧
    (Proc.step Proc.procInit Proc.Event.runStart).slot = Proc.procInit.slot :=
  ⟨(slot_emptied_at_most_once_only_by_interrupt.1 [Proc.Event.interruptEv]).1,
   slot_emptied_at_most_once_only_by_interrupt.2 Proc.procInit Proc.Event.runStart
     (by decide)⟩

/-- C7: over any interleaving, the pairs handed to the stdout sink are
exactly the stdout-data payloads `run` consumed, in arrival order, indexed
0,1,2,…; only stdout chunks reach the sink (the sink list is fully
determined by the stdout log), and the next index equals the number of
chunks delivered so far. -/
theorem run_sink_enumerates_stdout_chunks (es : List Proc.Event) :
    (Proc.runTrace Proc.procInit es).sink
      = List.enum (Proc.runTrace Proc.procInit es).dataLog ∧
    (Proc.runTrace Proc.procInit es).index
      = (Proc.runTrace Proc.procInit es).dataLog.length := by
  refine runTrace_inv
    (fun s => s.sink = List.enum s.dataLog ∧ s.index = s.dataLog.length)
    ?_ es Proc.procInit ⟨rfl, rfl⟩
  intro s e hs
  obtain ⟨h1, h2⟩ := hs
  cases e with
  | runStart =>
      simp only [Proc.step]; split <;> exact ⟨h1, h2⟩
  | runRecvNone =>
      simp only [Proc.step]; split <;> exact ⟨h1, h2⟩
  | runObserveEmpty =>
      simp only [Proc.step]; split <;> exact ⟨h1, h2⟩
  | interruptEv =>
      simp only [Proc.step, Proc.interrupt]; split <;> exact ⟨h1, h2⟩
  | runRecv m =>
      cases m with
      | Data d =>
          simp only [Proc.step]
          split
          · refine ⟨?_, ?_⟩
            · simp [h1, h2, List.enum_append, List.enumFrom_singleton]
            · simp [h2]
          · exact ⟨h1, h2⟩
      | ExtendedData d ext =>
          simp only [Proc.step]; split <;> (try split) <;> exact ⟨h1, h2⟩
      | ExitStatus c =>
          simp only [Proc.step]; split <;> (try split) <;> exact ⟨h1, h2⟩
      | Eof =>
          simp only [Proc.step]; split <;> (try split) <;> exact ⟨h1, h2⟩
      | Close => simp only [Proc.step]; split <;> exact ⟨h1, h2⟩
      | Other => simp only [Proc.step]; split <;> exact ⟨h1, h2⟩

/-- C7 witness: a concrete run delivering two chunks hands the sink the
pairs (0, first chunk) and (1, second chunk). -/
theorem run_sink_enumerates_stdout_chunks_witness :
    (Proc.runTrace Proc.procInit
      [Proc.Event.runStart, Proc.Event.runRecv (ChannelMsg.Data [10]),
       Proc.Event.runRecv (ChannelMsg.ExtendedData [99] 1),
       Proc.Event.runRecv (ChannelMsg.Data [20])]).sink
      = List.enum (Proc.runTrace Proc.procInit
          [Proc.Event.runStart, Proc.Event.runRecv (ChannelMsg.Data [10]),
           Proc.Event.runRecv (ChannelMsg.ExtendedData [99] 1),
           Proc.Event.runRecv (ChannelMsg.Data [20])]).dataLog :=
  (run_sink_enumerates_stdout_chunks
    [Proc.Event.runStart, Proc.Event.runRecv (ChannelMsg.Data [10]),
     Proc.Event.runRecv (ChannelMsg.ExtendedData [99] 1),
     Proc.Event.runRecv (ChannelMsg.Data [20])]).1

/-- C1, counterexample: the channel slot is emptied by an interrupt after
an exit-status 5 arrived but before end-of-stream, so the loop ends before
both signals were observed — yet `run` does not return success: the final
exit-status check still applies to the status observed before the
interruption, and `run` fails with the structured exit-status error. -/
theorem run_interrupted_after_exit_status_fails :
    (Proc.runTrace Proc.procInit
      [Proc.Event.runStart, Proc.Event.runRecv (ChannelMsg.ExitStatus 5),
       Proc.Event.interruptEv, Proc.Event.runObserveEmpty]).runResult
      = some (Except.error (Error.ExitStatus
          "Command exited with non-zero return code" 5 [])) ∧
    (Proc.runTrace Proc.procInit
      [Proc.Event.runStart, Proc.Event.runRecv (ChannelMsg.ExitStatus 5),
       Proc.Event.interruptEv, Proc.Event.runObserveEmpty]).eofSeen = false :=
  ⟨rfl, rfl⟩

/-- C1 (amended): when the loop of `run` observes an empty slot it ends
immediately, and the usual exit-status check is applied to whatever status
was observed so far; in particular if no exit-status had been observed
before the interruption, `run` returns success. -/
theorem run_interrupted_before_exit_status_succeeds (s : ProcState)
    (h1 : s.phase = Phase.looping) (h2 : s.slot = false) :
    (Proc.step s Proc.Event.runObserveEmpty).phase = Phase.finished ∧
    (Proc.step s Proc.Event.runObserveEmpty).runResult
      = some (runFinish s.status s.stderrBuf) ∧
    (s.status = none →
      (Proc.step s Proc.Event.runObserveEmpty).runResult = some (Except.ok ())) := by
  have hc : s.phase = Phase.looping ∧ s.slot = false := ⟨h1, h2⟩
  exact ⟨by simp [Proc.step, hc], by simp [Proc.step, hc],
    fun h3 => by simp [Proc.step, hc, h3, runFinish]⟩

/-- C1 witness: a `run` whose slot was taken by `interrupt` right after
start (no exit-status ever observed) finishes with success. -/
theorem run_interrupted_before_exit_status_succeeds_witness :
    (Proc.step (Proc.runTrace Proc.procInit
        [Proc.Event.runStart, Proc.Event.interruptEv])
      Proc.Event.runObserveEmpty).runResult = some (Except.ok ()) :=
  (run_interrupted_before_exit_status_succeeds
    (Proc.runTrace Proc.procInit [Proc.Event.runStart, Proc.Event.interruptEv])
    rfl rfl).2.2 rfl

/-- C8, counterexample: after `run` completed naturally the slot is still
populated, so a subsequent `interrupt` is not a no-op — it takes the
channel and closes it (close count increases). The claim's premise that
the slot is already empty once `run` has completed does not hold. -/
theorem interrupt_after_run_completion_closes :
    (Proc.runTrace Proc.procInit
      [Proc.Event.runStart, Proc.Event.runRecv (ChannelMsg.ExitStatus 0),
       Proc.Event.runRecv ChannelMsg.Eof]).runResult = some (Except.ok ()) ∧
    (Proc.runTrace Proc.procInit
      [Proc.Event.runStart, Proc.Event.runRecv (ChannelMsg.ExitStatus 0),
       Proc.Event.runRecv ChannelMsg.Eof]).slot = true ∧
    (Proc.interrupt (Proc.runTrace Proc.procInit
      [Proc.Event.runStart, Proc.Event.runRecv (ChannelMsg.ExitStatus 0),
       Proc.Event.runRecv ChannelMsg.Eof]) (Except.ok ())).1.closes
      = (Proc.runTrace Proc.procInit
          [Proc.Event.runStart, Proc.Event.runRecv (ChannelMsg.ExitStatus 0),
           Proc.Event.runRecv ChannelMsg.Eof]).closes + 1 ∧
    (Proc.interrupt (Proc.runTrace Proc.procInit
      [Proc.Event.runStart, Proc.Event.runRecv (ChannelMsg.ExitStatus 0),
       Proc.Event.runRecv ChannelMsg.Eof]) (Except.ok ())).1.slot = false :=
  ⟨rfl, rfl, rfl, rfl⟩

/-- C8 (amended): `interrupt` on an already-empty slot (for instance after
a previous `interrupt`) is a no-op returning no error, whatever the
would-be close outcome — no close is attempted; a second call after a
first is such a no-op, so the channel is never closed twice, and a single
call closes at most once. When a close does happen, `interrupt` returns
its outcome: success, or the close's error propagated. -/
theorem interrupt_idempotent_no_double_close (s : ProcState)
    (closeR closeR2 : Except RusshError Unit) :
    (s.slot = false → Proc.interrupt s closeR = (s, Except.ok ())) ∧
    Proc.interrupt (Proc.interrupt s closeR).1 closeR2
      = ((Proc.interrupt s closeR).1, Except.ok ()) ∧
    (s.slot = true → (Proc.interrupt s (Except.ok ())).2 = Except.ok () ∧
      (∀ e, (Proc.interrupt s (Except.error e)).2
        = Except.error (Error.Transport e))) ∧
    (Proc.interrupt s closeR).1.closes ≤ s.closes + 1 := by
  by_cases h : s.slot = true
  · refine ⟨fun hf => by rw [h] at hf; exact absurd hf (by simp), ?_,
      fun _ => ⟨?_, fun e => ?_⟩, ?_⟩ <;> simp [Proc.interrupt, h]
  · have h0 : s.slot = false := by simpa using h
    refine ⟨fun _ => ?_, ?_, fun hf => by rw [h0] at hf; exact absurd hf (by simp),
      ?_⟩ <;> simp [Proc.interrupt, h0]

/-- C8 witness: a second `interrupt` right after a first one is a no-op,
and the hypotheses are realized at the freshly interrupted initial
state. -/
theorem interrupt_idempotent_no_double_close_witness :
    Proc.interrupt (Proc.interrupt Proc.procInit (Except.ok ())).1 (Except.ok ())
      = ((Proc.interrupt Proc.procInit (Except.ok ())).1, Except.ok ()) :=
  (interrupt_idempotent_no_double_close
    (Proc.interrupt Proc.procInit (Except.ok ())).1 (Except.ok ())
    (Except.ok ())).1 rfl

/-- C10: if `interrupt` empties the slot before `run` starts, then however
the rest of the execution interleaves, `run` never sends the exec request,
never delivers a chunk to the sink, and can only finish with success. -/
theorem run_after_early_interrupt_noop (es : List Proc.Event) :
    (Proc.runTrace Proc.procInit (Proc.Event.interruptEv :: es)).execSent = false ∧
    (Proc.runTrace Proc.procInit (Proc.Event.interruptEv :: es)).sink = [] ∧
    ((Proc.runTrace Proc.procInit (Proc.Event.interruptEv :: es)).runResult = none ∨
      (Proc.runTrace Proc.procInit (Proc.Event.interruptEv :: es)).runResult
        = some (Except.ok ())) := by
  have h := runTrace_inv
    (fun s => s.slot = false ∧ s.execSent = false ∧ s.sink = [] ∧ s.status = none ∧
      (s.runResult = none ∨ s.runResult = some (Except.ok ())))
    ?_ es (Proc.step Proc.procInit Proc.Event.interruptEv)
    ⟨rfl, rfl, rfl, rfl, Or.inl rfl⟩
  · exact ⟨h.2.1, h.2.2.1, h.2.2.2.2⟩
  · intro s e hs
    obtain ⟨q1, q2, q3, q4, q5⟩ := hs
    cases e with
    | runStart =>
        simp only [Proc.step]
        split
        · exact ⟨q1, q1, q3, q4, q5⟩
        · exact ⟨q1, q2, q3, q4, q5⟩
    | runRecv m =>
        simp only [Proc.step]
        split
        · next hg => rw [q1] at hg; exact absurd hg.2 (by simp)
        · exact ⟨q1, q2, q3, q4, q5⟩
    | runRecvNone =>
        simp only [Proc.step]
        split
        · next hg => rw [q1] at hg; exact absurd hg.2 (by simp)
        · exact ⟨q1, q2, q3, q4, q5⟩
    | runObserveEmpty =>
        simp only [Proc.step]
        split
        · exact ⟨q1, q2, q3, q4, Or.inr (by simp [q4, runFinish])⟩
        · exact ⟨q1, q2, q3, q4, q5⟩
    | interruptEv =>
        simp only [Proc.step, Proc.interrupt]
        split
        · next hg => rw [q1] at hg; exact absurd hg (by simp)
        · exact ⟨q1, q2, q3, q4, q5⟩

/-- C10 witness: interrupt first, then `run` starting and observing the
empty slot: the exec request is never sent. -/
theorem run_after_early_interrupt_noop_witness :
    (Proc.runTrace Proc.procInit
      [Proc.Event.interruptEv, Proc.Event.runStart,
       Proc.Event.runObserveEmpty]).execSent = false :=
  (run_after_early_interrupt_noop
    [Proc.Event.runStart, Proc.Event.runObserveEmpty]).1

/-- C2: a channel-open refusal removes the device's entry from the pool
(when the weak pool reference is still live) and hands the caller the
distinguished Reconnect error instead of the raw refusal; the device name
is absent from the resulting pool. -/
theorem channel_refused_evicts_and_reconnect (name : String)
    (pool : Option ConnectionsMap) (reason : Nat) :
    Connection.open_cmd_channel name pool
        (Except.error (RusshError.ChannelOpenFailure reason))
      = ⟨Connection.remove_from_pool name pool, Except.error Error.Reconnect⟩ ∧
    name ∉ (Connection.remove_from_pool name pool).getD [] := by
  refine ⟨rfl, ?_⟩
  cases pool with
  | none => simp [Connection.remove_from_pool]
  | some m => simp [Connection.remove_from_pool, List.mem_filter]

/-- C2 witness: a refused channel open for "router1" leaves a pool without
"router1" and yields the Reconnect error. -/
theorem channel_refused_evicts_and_reconnect_witness :
    Connection.open_cmd_channel "router1" (some ["router1"])
        (Except.error (RusshError.ChannelOpenFailure 2))
      = ⟨Connection.remove_from_pool "router1" (some ["router1"]),
         Except.error Error.Reconnect⟩ ∧
    "router1" ∉ (Connection.remove_from_pool "router1" (some ["router1"])).getD [] :=
  channel_refused_evicts_and_reconnect "router1" (some ["router1"]) 2

/-- C3, counterexample: a transport failure while *using* the channel (the
exec request fails after the channel opened) propagates the underlying
cause to the caller, but the Connection is not evicted — the device's pool
entry is still present afterwards, contradicting the claim that every
non-refusal transport error triggers eviction. -/
theorem exec_request_failure_does_not_evict :
    Connection.exec "router1" (some ["router1"]) (Except.ok 0)
        (Except.error (RusshError.Other 7)) none (Except.ok ()) (Except.ok ()) []
      = ⟨some ["router1"], Except.error (Error.Transport (RusshError.Other 7))⟩ ∧
    "router1" ∈ ((some ["router1"] : Option ConnectionsMap).getD []) :=
  ⟨rfl, by simp⟩

/-- C3 (amended): a non-refusal transport error during channel *opening*
evicts the Connection from the pool and propagates the underlying cause
unchanged; a transport error during subsequent channel use — the exec
request, the stdin write, or the end-of-input signal — propagates the
cause unchanged but leaves the pool untouched. -/
theorem transport_error_evicts_only_at_open :
    (∀ (name : String) (pool : Option ConnectionsMap) (code : Nat),
      Connection.open_cmd_channel name pool (Except.error (RusshError.Other code))
        = ⟨Connection.remove_from_pool name pool,
            Except.error (Error.Transport (RusshError.Other code))⟩) ∧
    (∀ (name : String) (pool : Option ConnectionsMap) (ch : Channel)
        (e : RusshError) (stdin : Option Bytes)
        (dataR eofR : Except RusshError Unit) (msgs : List ChannelMsg),
      Connection.exec name pool (Except.ok ch) (Except.error e) stdin dataR eofR msgs
        = ⟨pool, Except.error (Error.Transport e)⟩) ∧
    (∀ (name : String) (pool : Option ConnectionsMap) (ch : Channel)
        (e : RusshError) (data : Bytes) (eofR : Except RusshError Unit)
        (msgs : List ChannelMsg),
      Connection.exec name pool (Except.ok ch) (Except.ok ()) (some data)
          (Except.error e) eofR msgs
        = ⟨pool, Except.error (Error.Transport e)⟩) ∧
    (∀ (name : String) (pool : Option ConnectionsMap) (ch : Channel)
        (e : RusshError) (data : Bytes) (msgs : List ChannelMsg),
      Connection.exec name pool (Except.ok ch) (Except.ok ()) (some data)
          (Except.ok ()) (Except.error e) msgs
        = ⟨pool, Except.error (Error.Transport e)⟩) :=
  ⟨fun _ _ _ => rfl, fun _ _ _ _ _ _ _ _ => rfl, fun _ _ _ _ _ _ _ => rfl,
   fun _ _ _ _ _ _ => rfl⟩

end DevManager
